import Mathlib

/-!
Verification of the outbound request governor of `binarylane-mcp`
(`src/schemas.ts`, class `BinaryLaneClient`): the admission gate
(`waitForSlot` / `releaseSlot`) and the retry engine
(`shouldRetry`, `calculateDelay`, the retry loop of `request`).

Durations and jitter are modelled over the rationals; HTTP status codes
over the naturals; the `Retry-After` header value (after `parseInt`) over
the integers.  Thrown JavaScript exceptions are reified into the
`Result.failure` constructor, so every exit path of the retry loop is an
explicit value and the `finally { releaseSlot() }` clause becomes plain
sequencing.
-/

namespace BinaryLane

/-- `RetryConfig` of `schemas.ts` (all fields defaulted in the
constructor, hence `Required<RetryConfig>`): `maxRetries`, `baseDelay`,
`maxDelay`, `backoffMultiplier`. -/
structure RetryConfig where
  maxRetries : Nat
  baseDelay : ℚ
  maxDelay : ℚ
  backoffMultiplier : ℚ
deriving DecidableEq

/-- The response body as seen by the loop after `await response.text()`:
empty text, text that `JSON.parse` decodes (the decoded value abstracted
as a string), or text on which `JSON.parse` throws. -/
inductive Body where
  | empty : Body
  | json (v : String) : Body
  | malformed (msg : String) : Body
deriving DecidableEq

/-- Outcome of one `fetch` call: either the promise rejects (network
error) or a response arrives with a status, an optional parsed
`Retry-After` header value (seconds), and a body. -/
inductive FetchResult where
  | fetchError (e : String) : FetchResult
  | resp (status : Nat) (retryAfter : Option ℤ) (body : Body) : FetchResult
deriving DecidableEq

/-- An error surfaced by the loop: an `ApiError` (status code preserved),
a network error, or a `JSON.parse` failure. -/
inductive ReqError where
  | api (status : Nat) (errBody : String) : ReqError
  | network (e : String) : ReqError
  | parseFail (msg : String) : ReqError
deriving DecidableEq

/-- A success payload: `{}` (for 204 / empty body) or the decoded JSON. -/
inductive Payload where
  | emptyObj : Payload
  | data (v : String) : Payload
deriving DecidableEq

/-- The overall outcome of `request`: a returned payload, a thrown error,
or the fall-through `throw lastError || new Error(...)` placed after the
loop (kept as a separate constructor so its reachability can be stated). -/
inductive Result where
  | success (p : Payload) : Result
  | failure (e : ReqError) : Result
  | fallback (lastError : Option ReqError) : Result
deriving DecidableEq

/-- `shouldRetry` of `schemas.ts`: retry on 429, 502, 503, 504. -/
def shouldRetry (statusCode : Nat) : Bool :=
  statusCode == 429 || statusCode == 502 || statusCode == 503 || statusCode == 504

/-- `calculateDelay` of `schemas.ts`.  `j` models `Math.random() * 2 - 1`
(a value in `[-1, 1)`); `0.2` is written `1/5`.  When `retryAfter` is
defined the function returns `retryAfter * 1000` at once. -/
def calculateDelay (cfg : RetryConfig) (attempt : Nat) (retryAfter : Option ℤ) (j : ℚ) : ℚ :=
  match retryAfter with
  | some r => (r : ℚ) * 1000
  | none =>
    let exponentialDelay := cfg.baseDelay * cfg.backoffMultiplier ^ attempt
    let cappedDelay := min exponentialDelay cfg.maxDelay
    let jitter := cappedDelay * (1/5) * j
    max 0 (cappedDelay + jitter)

/-- What one iteration of the `for` loop in `request` does, with control
flow reified: return a payload, throw an error, or sleep `delay` and
continue to the next attempt. -/
inductive Step where
  | success (p : Payload) : Step
  | throwErr (e : ReqError) : Step
  | retryWith (e : ReqError) (delay : ℚ) : Step
deriving DecidableEq

/-- The body of the retry loop in `request`, for attempt index `a`:
status 204 returns `{}`; an empty body returns `{}`; otherwise the text
is parsed (`JSON.parse` failures take the catch path, like network
errors); a non-ok status builds an `ApiError`, which is retried only when
`a < maxRetries` and the status is retryable (with `Retry-After` fed into
`calculateDelay`), else thrown; an ok status returns the decoded data.
The catch clause rethrows `ApiError`s and retries other errors while
`a < maxRetries` with `calculateDelay a` (no `Retry-After`). -/
def attemptStep (cfg : RetryConfig) (tr : Nat → FetchResult) (jit : Nat → ℚ) (a : Nat) : Step :=
  match tr a with
  | .fetchError e =>
    if a < cfg.maxRetries then
      .retryWith (.network e) (calculateDelay cfg a none (jit a))
    else
      .throwErr (.network e)
  | .resp status retryAfter body =>
    if status == 204 then .success .emptyObj
    else
      match body with
      | .empty => .success .emptyObj
      | .malformed msg =>
        if a < cfg.maxRetries then
          .retryWith (.parseFail msg) (calculateDelay cfg a none (jit a))
        else
          .throwErr (.parseFail msg)
      | .json v =>
        if 200 ≤ status ∧ status < 300 then .success (.data v)
        else
          if a < cfg.maxRetries ∧ shouldRetry status then
            .retryWith (.api status v) (calculateDelay cfg a retryAfter (jit a))
          else
            .throwErr (.api status v)

/-- The retry loop of `request`, run from attempt index `a` with `fuel`
iterations left (the loop condition `attempt <= maxRetries` gives the
initial fuel `maxRetries + 1`) and the current `lastError`.  Returns the
result, the number of physical attempts performed, and the list of delays
slept.  Fuel 0 is the fall-through after the loop:
`throw lastError || new Error('Request failed after all retry attempts')`. -/
def runFrom (cfg : RetryConfig) (tr : Nat → FetchResult) (jit : Nat → ℚ) :
    Nat → Nat → Option ReqError → Result × Nat × List ℚ
  | 0, _, lastError => (.fallback lastError, 0, [])
  | fuel + 1, a, _lastError =>
    match attemptStep cfg tr jit a with
    | .success p => (.success p, 1, [])
    | .throwErr e => (.failure e, 1, [])
    | .retryWith e d =>
      let rest := runFrom cfg tr jit fuel (a + 1) (some e)
      (rest.1, rest.2.1 + 1, d :: rest.2.2)

/-- The retry part of `request` (after slot acquisition): the loop over
attempts `0 .. maxRetries`. -/
def request (cfg : RetryConfig) (tr : Nat → FetchResult) (jit : Nat → ℚ) :
    Result × Nat × List ℚ :=
  runFrom cfg tr jit (cfg.maxRetries + 1) 0 none

/-- Whether a `Result` is the fall-through throw after the loop. -/
def Result.isFallback : Result → Bool
  | .fallback _ => true
  | _ => false

/-- Whether a `Result` is a thrown error (fall-through included). -/
def Result.isError : Result → Bool
  | .success _ => false
  | _ => true

end BinaryLane

namespace BinaryLane

/-! ## Admission gate -/

/-- The gate state of `BinaryLaneClient`: `activeRequests` (a JS number,
decremented unconditionally by `releaseSlot`, hence an integer) and
`requestQueue`, the FIFO list of waiting callers (identified by tokens). -/
structure GateState where
  activeRequests : ℤ
  requestQueue : List Nat
deriving DecidableEq

/-- The state at client construction: no active request, empty queue. -/
def GateState.init : GateState := ⟨0, []⟩

/-- Observable events of the gate: a caller granted a slot on the fast
path of `waitForSlot`, a caller appended to `requestQueue`, and a queued
caller resumed by `releaseSlot`. -/
inductive GateEvent where
  | grantedNow (c : Nat) : GateEvent
  | enqueued (c : Nat) : GateEvent
  | grantedFromQueue (c : Nat) : GateEvent
deriving DecidableEq

/-- `waitForSlot` of `schemas.ts` for caller `c`: below `maxConcurrent`
the count is incremented and the caller proceeds; otherwise a resolver is
pushed onto the end of `requestQueue` and the caller suspends. -/
def waitForSlot (maxConcurrent : Nat) (s : GateState) (c : Nat) : GateState × GateEvent :=
  if s.activeRequests < (maxConcurrent : ℤ) then
    (⟨s.activeRequests + 1, s.requestQueue⟩, .grantedNow c)
  else
    (⟨s.activeRequests, s.requestQueue ++ [c]⟩, .enqueued c)

/-- `releaseSlot` of `schemas.ts`: decrement `activeRequests`, then shift
the queue; a dequeued resolver runs `activeRequests++` and resumes its
caller. -/
def releaseSlot (s : GateState) : GateState × Option GateEvent :=
  let dec := s.activeRequests - 1
  match s.requestQueue with
  | [] => (⟨dec, []⟩, none)
  | c :: rest => (⟨dec + 1, rest⟩, some (.grantedFromQueue c))

/-- An operation on the gate: some caller invokes `waitForSlot`, or a
finishing request invokes `releaseSlot`. -/
inductive GateOp where
  | acquire (c : Nat) : GateOp
  | release : GateOp
deriving DecidableEq

/-- One gate operation applied to a state, with the events it emits. -/
def gateStep (maxConcurrent : Nat) (s : GateState) : GateOp → GateState × List GateEvent
  | .acquire c =>
    let r := waitForSlot maxConcurrent s c
    (r.1, [r.2])
  | .release =>
    let r := releaseSlot s
    (r.1, r.2.toList)

/-- A sequence of gate operations applied from a state, collecting the
emitted events in order. -/
def runGateFrom (maxConcurrent : Nat) (s : GateState) : List GateOp → GateState × List GateEvent
  | [] => (s, [])
  | op :: rest =>
    let r := gateStep maxConcurrent s op
    let r2 := runGateFrom maxConcurrent r.1 rest
    (r2.1, r.2 ++ r2.2)

/-- A sequence of gate operations applied from the initial state. -/
def runGate (maxConcurrent : Nat) (ops : List GateOp) : GateState × List GateEvent :=
  runGateFrom maxConcurrent GateState.init ops

/-- Callers appended to the wait queue, in event order. -/
def enqueuedList (evs : List GateEvent) : List Nat :=
  evs.filterMap fun e =>
    match e with
    | .enqueued c => some c
    | _ => none

/-- Callers granted a slot out of the wait queue by `releaseSlot`, in
event order. -/
def queueGrants (evs : List GateEvent) : List Nat :=
  evs.filterMap fun e =>
    match e with
    | .grantedFromQueue c => some c
    | _ => none

/-- A whole logical `request` run against the gate (sequentially): the
`await this.waitForSlot()` at the top, the retry loop in the `try`, and
the `finally { this.releaseSlot() }`.  Since every loop exit is a
`Result` value, the single `releaseSlot` covers every path. -/
def requestOnGate (maxConcurrent : Nat) (cfg : RetryConfig) (tr : Nat → FetchResult)
    (jit : Nat → ℚ) (s : GateState) : (Result × Nat × List ℚ) × GateState :=
  let s1 := (waitForSlot maxConcurrent s 0).1
  let r := request cfg tr jit
  let s2 := (releaseSlot s1).1
  (r, s2)

end BinaryLane

namespace BinaryLane

/-! ## Gate lemmas -/

/-- One gate operation keeps `activeRequests` at or below `maxConcurrent`
(the hand-off in `releaseSlot` nets to zero; `waitForSlot` increments only
below the bound). -/
lemma gateStep_active_le (N : Nat) (s : GateState) (op : GateOp)
    (h : s.activeRequests ≤ (N : ℤ)) :
    ((gateStep N s op).1).activeRequests ≤ (N : ℤ) := by
  cases op with
  | acquire c =>
    simp only [gateStep, waitForSlot]
    split
    · next hlt => simpa using hlt
    · simpa using h
  | release =>
    simp only [gateStep, releaseSlot]
    rcases hq : s.requestQueue with _ | ⟨c, rest⟩
    · simp only
      omega
    · simp only
      omega

/-- Any operation sequence from a state within the bound stays within the
bound. -/
lemma runGateFrom_active_le (N : Nat) :
    ∀ (ops : List GateOp) (s : GateState), s.activeRequests ≤ (N : ℤ) →
      (((runGateFrom N s ops).1).activeRequests ≤ (N : ℤ))
  | [], _, h => h
  | op :: rest, s, h =>
    runGateFrom_active_le N rest (gateStep N s op).1 (gateStep_active_le N s op h)

end BinaryLane

namespace BinaryLane

/-- The queue bookkeeping identity: the callers already granted out of
the queue, followed by the callers still queued, are exactly the callers
enqueued so far (prepended with whatever the start state queued).
`releaseSlot` always resumes the head, `waitForSlot` appends at the end. -/
lemma runGateFrom_queue_invariant (N : Nat) :
    ∀ (ops : List GateOp) (s : GateState),
      queueGrants (runGateFrom N s ops).2 ++ ((runGateFrom N s ops).1).requestQueue
        = s.requestQueue ++ enqueuedList (runGateFrom N s ops).2 := by
  intro ops
  induction ops with
  | nil => intro s; simp [runGateFrom, queueGrants, enqueuedList]
  | cons op rest ih =>
    intro s
    cases op with
    | acquire c =>
      by_cases hlt : s.activeRequests < (N : ℤ)
      · have h := ih (⟨s.activeRequests + 1, s.requestQueue⟩ : GateState)
        simp only [runGateFrom, gateStep, waitForSlot, if_pos hlt, queueGrants,
          enqueuedList, List.filterMap_append, List.filterMap_cons,
          List.filterMap_nil] at h ⊢
        simpa using h
      · have h := ih (⟨s.activeRequests, s.requestQueue ++ [c]⟩ : GateState)
        simp only [runGateFrom, gateStep, waitForSlot, if_neg hlt, queueGrants,
          enqueuedList, List.filterMap_append, List.filterMap_cons,
          List.filterMap_nil] at h ⊢
        simpa using h
    | release =>
      rcases hq : s.requestQueue with _ | ⟨c, tl⟩
      · have h := ih (⟨s.activeRequests - 1, []⟩ : GateState)
        simp only [runGateFrom, gateStep, releaseSlot, hq, queueGrants,
          enqueuedList, List.filterMap_append, List.filterMap_cons,
          List.filterMap_nil] at h ⊢
        simpa using h
      · have h := ih (⟨s.activeRequests - 1 + 1, tl⟩ : GateState)
        simp only [runGateFrom, gateStep, releaseSlot, hq, queueGrants,
          enqueuedList, List.filterMap_append, List.filterMap_cons,
          List.filterMap_nil] at h ⊢
        simpa using h

/-- When the queue is non-empty the count is at the bound, and it stays
that way under every operation (callers enqueue only at the bound; the
hand-off keeps the count constant). -/
lemma runGateFrom_queue_active (N : Nat) :
    ∀ (ops : List GateOp) (s : GateState),
      (s.requestQueue ≠ [] → (N : ℤ) ≤ s.activeRequests) →
      (((runGateFrom N s ops).1).requestQueue ≠ [] →
        (N : ℤ) ≤ ((runGateFrom N s ops).1).activeRequests) := by
  intro ops
  induction ops with
  | nil => intro s h; exact h
  | cons op rest ih =>
    intro s h
    cases op with
    | acquire c =>
      by_cases hlt : s.activeRequests < (N : ℤ)
      · have hq : s.requestQueue = [] := by
          by_contra hne
          exact absurd (h hne) (not_le.mpr hlt)
        refine ?_
        have := ih (⟨s.activeRequests + 1, s.requestQueue⟩ : GateState)
          (by intro hne; rw [hq] at hne; exact absurd rfl hne)
        simpa [runGateFrom, gateStep, waitForSlot, if_pos hlt] using this
      · have := ih (⟨s.activeRequests, s.requestQueue ++ [c]⟩ : GateState)
          (by intro _; exact not_lt.mp hlt)
        simpa [runGateFrom, gateStep, waitForSlot, if_neg hlt] using this
    | release =>
      rcases hq : s.requestQueue with _ | ⟨c, tl⟩
      · have := ih (⟨s.activeRequests - 1, []⟩ : GateState)
          (by intro hne; exact absurd rfl hne)
        simpa [runGateFrom, gateStep, releaseSlot, hq] using this
      · have := ih (⟨s.activeRequests - 1 + 1, tl⟩ : GateState)
          (by intro _
              have hb := h (by rw [hq]; exact List.cons_ne_nil c tl)
              show (N : ℤ) ≤ s.activeRequests - 1 + 1
              omega)
        simpa [runGateFrom, gateStep, releaseSlot, hq] using this

end BinaryLane

namespace BinaryLane

/-! ## Retry loop lemmas -/

/-- Unfolding of one loop iteration (fuel successor case). -/
lemma runFrom_succ (cfg : RetryConfig) (tr : Nat → FetchResult) (jit : Nat → ℚ)
    (f a : Nat) (le : Option ReqError) :
    runFrom cfg tr jit (f + 1) a le =
      match attemptStep cfg tr jit a with
      | .success p => (.success p, 1, [])
      | .throwErr e => (.failure e, 1, [])
      | .retryWith e d =>
        ((runFrom cfg tr jit f (a + 1) (some e)).1,
         (runFrom cfg tr jit f (a + 1) (some e)).2.1 + 1,
         d :: (runFrom cfg tr jit f (a + 1) (some e)).2.2) := by
  simp only [runFrom]

/-- An iteration whose body returns a payload. -/
lemma runFrom_success_step (cfg : RetryConfig) (tr : Nat → FetchResult) (jit : Nat → ℚ)
    (f a : Nat) (le : Option ReqError) (p : Payload)
    (hstep : attemptStep cfg tr jit a = .success p) :
    runFrom cfg tr jit (f + 1) a le = (.success p, 1, []) := by
  rw [runFrom_succ, hstep]

/-- An iteration whose body throws. -/
lemma runFrom_throw_step (cfg : RetryConfig) (tr : Nat → FetchResult) (jit : Nat → ℚ)
    (f a : Nat) (le : Option ReqError) (e : ReqError)
    (hstep : attemptStep cfg tr jit a = .throwErr e) :
    runFrom cfg tr jit (f + 1) a le = (.failure e, 1, []) := by
  rw [runFrom_succ, hstep]

/-- An iteration whose body sleeps `d` and continues. -/
lemma runFrom_retry_step (cfg : RetryConfig) (tr : Nat → FetchResult) (jit : Nat → ℚ)
    (f a : Nat) (le : Option ReqError) (e : ReqError) (d : ℚ)
    (hstep : attemptStep cfg tr jit a = .retryWith e d) :
    runFrom cfg tr jit (f + 1) a le =
      ((runFrom cfg tr jit f (a + 1) (some e)).1,
       (runFrom cfg tr jit f (a + 1) (some e)).2.1 + 1,
       d :: (runFrom cfg tr jit f (a + 1) (some e)).2.2) := by
  rw [runFrom_succ, hstep]

/-- Both retry branches of the loop body are guarded by
`attempt < maxRetries`: a retry step implies the guard. -/
lemma attemptStep_retry_lt (cfg : RetryConfig) (tr : Nat → FetchResult) (jit : Nat → ℚ)
    (a : Nat) (e : ReqError) (d : ℚ)
    (h : attemptStep cfg tr jit a = .retryWith e d) : a < cfg.maxRetries := by
  by_contra hlt
  rcases htr : tr a with e0 | ⟨status, ra, b⟩
  · simp [attemptStep, htr, hlt] at h
  · rcases b with _ | v | msg
    · simp [attemptStep, htr] at h
    · by_cases h204 : status = 204
      · simp [attemptStep, htr, h204] at h
      · by_cases hok : 200 ≤ status ∧ status < 300
        · simp [attemptStep, htr, h204, hok] at h
        · simp [attemptStep, htr, h204, hok, hlt] at h
    · by_cases h204 : status = 204
      · simp [attemptStep, htr, h204] at h
      · simp [attemptStep, htr, h204, hlt] at h

/-- A retryable status is one of 429, 502, 503, 504. -/
lemma shouldRetry_cases (s : Nat) (h : shouldRetry s = true) :
    s = 429 ∨ s = 502 ∨ s = 503 ∨ s = 504 := by
  simp only [shouldRetry, Bool.or_eq_true, beq_iff_eq] at h
  tauto

/-- A retryable status is not 204 and not a success status. -/
lemma shouldRetry_not_ok (s : Nat) (h : shouldRetry s = true) :
    s ≠ 204 ∧ ¬ (200 ≤ s ∧ s < 300) := by
  rcases shouldRetry_cases s h with rfl | rfl | rfl | rfl <;> omega

/-- On a retryable response with a well-formed JSON body, the loop body
retries while the guard holds and throws the `ApiError` on the last
attempt. -/
lemma attemptStep_retryable (cfg : RetryConfig) (tr : Nat → FetchResult) (jit : Nat → ℚ)
    (a : Nat) (s : Nat) (ra : Option ℤ) (v : String)
    (htr : tr a = .resp s ra (.json v)) (hs : shouldRetry s = true) :
    attemptStep cfg tr jit a =
      if a < cfg.maxRetries then .retryWith (.api s v) (calculateDelay cfg a ra (jit a))
      else .throwErr (.api s v) := by
  obtain ⟨h204, hok⟩ := shouldRetry_not_ok s hs
  by_cases hlt : a < cfg.maxRetries
  · simp [attemptStep, htr, h204, hok, hlt, hs]
  · simp [attemptStep, htr, h204, hok, hlt]

end BinaryLane

namespace BinaryLane

/-- A request whose every attempt yields a retryable-status response with
a JSON body: starting at attempt `a` with `maxRetries - a` retries left,
the loop performs one attempt per unit of fuel and ends by throwing the
last attempt's `ApiError`. -/
lemma runFrom_all_retryable (cfg : RetryConfig) (tr : Nat → FetchResult) (jit : Nat → ℚ)
    (H : ∀ a, ∃ s ra v, tr a = .resp s ra (.json v) ∧ shouldRetry s = true) :
    ∀ (f a : Nat) (le : Option ReqError), a + f = cfg.maxRetries →
      (runFrom cfg tr jit (f + 1) a le).2.1 = f + 1 ∧
      ∃ s v, (runFrom cfg tr jit (f + 1) a le).1 = .failure (.api s v) ∧
        shouldRetry s = true := by
  intro f
  induction f with
  | zero =>
    intro a le ha
    obtain ⟨s, ra, v, htr, hs⟩ := H a
    have hstep : attemptStep cfg tr jit a = .throwErr (.api s v) := by
      rw [attemptStep_retryable cfg tr jit a s ra v htr hs, if_neg (by omega)]
    rw [runFrom_throw_step cfg tr jit 0 a le _ hstep]
    exact ⟨rfl, s, v, rfl, hs⟩
  | succ f ih =>
    intro a le ha
    obtain ⟨s, ra, v, htr, hs⟩ := H a
    have hstep : attemptStep cfg tr jit a
        = .retryWith (.api s v) (calculateDelay cfg a ra (jit a)) := by
      rw [attemptStep_retryable cfg tr jit a s ra v htr hs, if_pos (by omega)]
    obtain ⟨hcount, s2, v2, hres, hs2⟩ := ih (a + 1) (some (.api s v)) (by omega)
    rw [runFrom_retry_step cfg tr jit (f + 1) a le _ _ hstep]
    exact ⟨by rw [hcount], s2, v2, hres, hs2⟩

/-- Starting anywhere inside the loop with fuel matching the remaining
attempts, the fall-through after the loop is unreachable: on the final
attempt both retry guards are false, so the body returns or throws. -/
lemma runFrom_no_fallback (cfg : RetryConfig) (tr : Nat → FetchResult) (jit : Nat → ℚ) :
    ∀ (f a : Nat) (le : Option ReqError), a + f = cfg.maxRetries →
      ((runFrom cfg tr jit (f + 1) a le).1).isFallback = false := by
  intro f
  induction f with
  | zero =>
    intro a le ha
    rcases hstep : attemptStep cfg tr jit a with p | e | ⟨e, d⟩
    · rw [runFrom_success_step cfg tr jit 0 a le p hstep]; rfl
    · rw [runFrom_throw_step cfg tr jit 0 a le e hstep]; rfl
    · exact absurd (attemptStep_retry_lt cfg tr jit a e d hstep) (by omega)
  | succ f ih =>
    intro a le ha
    rcases hstep : attemptStep cfg tr jit a with p | e | ⟨e, d⟩
    · rw [runFrom_success_step cfg tr jit (f + 1) a le p hstep]; rfl
    · rw [runFrom_throw_step cfg tr jit (f + 1) a le e hstep]; rfl
    · rw [runFrom_retry_step cfg tr jit (f + 1) a le e d hstep]
      exact ih (a + 1) (some e) (by omega)

end BinaryLane

namespace BinaryLane

/-! ## Fixtures (the constructor defaults of `BinaryLaneClient`) -/

/-- The default retry configuration: `maxRetries 3`, `baseDelay 1000`,
`maxDelay 32000`, `backoffMultiplier 2`. -/
def cfgDefault : RetryConfig := ⟨3, 1000, 32000, 2⟩

/-- The pre-jitter delay of `calculateDelay`: the exponential value
`baseDelay * backoffMultiplier ^ attempt` capped at `maxDelay`
(`cappedDelay` in the source). -/
def preJitterDelay (cfg : RetryConfig) (attempt : Nat) : ℚ :=
  min (cfg.baseDelay * cfg.backoffMultiplier ^ attempt) cfg.maxDelay

/-! ## Claims -/

/-- C1: with `maxRetries = K`, a request whose every physical attempt
yields a retryable-status response with a non-empty JSON body performs
exactly `K + 1` physical attempts (indices `0..K`) and then surfaces a
terminal error (the last attempt's `ApiError`); the attempt count of the
whole run is `K + 1`, so nothing follows the terminal error. -/
theorem retry_exhaustion_attempt_count (cfg : RetryConfig) (tr : Nat → FetchResult)
    (jit : Nat → ℚ)
    (H : ∀ a, ∃ s ra v, tr a = .resp s ra (.json v) ∧ shouldRetry s = true) :
    (request cfg tr jit).2.1 = cfg.maxRetries + 1 ∧
    ∃ s v, (request cfg tr jit).1 = .failure (.api s v) ∧ shouldRetry s = true :=
  runFrom_all_retryable cfg tr jit H cfg.maxRetries 0 none (by omega)

/-- C1 witness: `maxRetries = 2` and a transport that always answers 503
with a JSON body gives 3 attempts and a terminal 503 error. -/
theorem retry_exhaustion_attempt_count_witness :
    (request ⟨2, 1000, 32000, 2⟩ (fun _ => .resp 503 none (.json "busy"))
        (fun _ => 0)).2.1 = 3 ∧
    ∃ s v, (request ⟨2, 1000, 32000, 2⟩ (fun _ => .resp 503 none (.json "busy"))
        (fun _ => 0)).1 = .failure (.api s v) ∧ shouldRetry s = true :=
  retry_exhaustion_attempt_count ⟨2, 1000, 32000, 2⟩
    (fun _ => .resp 503 none (.json "busy")) (fun _ => 0)
    (fun _ => ⟨503, none, "busy", rfl, rfl⟩)

/-- C2: from the initial state, under every interleaving of
`waitForSlot` / `releaseSlot` operations `activeRequests` never exceeds
`maxConcurrent`; at the bound an acquirer is appended to the wait queue
instead of being granted a slot, and a release hands the freed slot to
the head waiter (count unchanged). -/
theorem bounded_concurrency (N : Nat) (ops : List GateOp) :
    ((runGate N ops).1).activeRequests ≤ (N : ℤ) ∧
    (∀ q c, waitForSlot N ⟨(N : ℤ), q⟩ c = (⟨(N : ℤ), q ++ [c]⟩, .enqueued c)) ∧
    (∀ x q c, releaseSlot ⟨x, c :: q⟩ = (⟨x, q⟩, some (.grantedFromQueue c))) := by
  refine ⟨runGateFrom_active_le N ops GateState.init (by simp [GateState.init]), ?_, ?_⟩
  · intro q c
    simp [waitForSlot]
  · intro x q c
    simp [releaseSlot]

/-- C10: the `throw lastError || new Error(...)` after the retry loop is
unreachable — for every configuration and every sequence of attempt
outcomes, the loop returns or throws within attempts `0..maxRetries`. -/
theorem loop_fallback_unreachable (cfg : RetryConfig) (tr : Nat → FetchResult)
    (jit : Nat → ℚ) :
    ((request cfg tr jit).1).isFallback = false :=
  runFrom_no_fallback cfg tr jit cfg.maxRetries 0 none (by omega)

/-- C3 counterexample: a response with terminal status 400 and an EMPTY
body is not surfaced as a terminal error — the loop returns success with
the empty-object payload (the `if (!text) return {}` branch runs before
the status is inspected). -/
theorem terminal_status_empty_body_cex :
    request cfgDefault (fun _ => .resp 400 none .empty) (fun _ => 0)
        = (.success .emptyObj, 1, []) ∧
    ((request cfgDefault (fun _ => .resp 400 none .empty) (fun _ => 0)).1).isError
        = false := by
  exact ⟨rfl, rfl⟩

/-- C3 (amended): a response with a non-2xx, non-retryable status AND a
non-empty well-formed JSON body surfaces a terminal `ApiError` carrying
that status after exactly 1 physical attempt, regardless of
`maxRetries`. -/
theorem terminal_status_one_attempt (cfg : RetryConfig) (tr : Nat → FetchResult)
    (jit : Nat → ℚ) (s : Nat) (ra : Option ℤ) (v : String)
    (htr : tr 0 = .resp s ra (.json v))
    (h2xx : s < 200 ∨ 300 ≤ s)
    (hnr : shouldRetry s = false) :
    request cfg tr jit = (.failure (.api s v), 1, []) := by
  have h204 : s ≠ 204 := by omega
  have hok : ¬ (200 ≤ s ∧ s < 300) := by omega
  have hstep : attemptStep cfg tr jit 0 = .throwErr (.api s v) := by
    simp [attemptStep, htr, h204, hok, hnr]
  exact runFrom_throw_step cfg tr jit cfg.maxRetries 0 none _ hstep

/-- C3 witness: a single 404 with a JSON body is a terminal error after
one attempt even with `maxRetries = 3`. -/
theorem terminal_status_one_attempt_witness :
    request cfgDefault (fun _ => .resp 404 none (.json "not found")) (fun _ => 0)
        = (.failure (.api 404 "not found"), 1, []) :=
  terminal_status_one_attempt cfgDefault
    (fun _ => .resp 404 none (.json "not found")) (fun _ => 0)
    404 none "not found" rfl (by omega) rfl

end BinaryLane

namespace BinaryLane

/-- C4: a logical request acquires one slot before the retry loop and the
`finally` releases it exactly once after the loop, whatever the outcome;
on a gate with a free slot and no waiters the state returns to its
pre-request value (the slot is held across the whole loop — the loop
itself never touches the gate). -/
theorem slot_release_roundtrip (N : Nat) (cfg : RetryConfig) (tr : Nat → FetchResult)
    (jit : Nat → ℚ) (s : GateState)
    (hq : s.requestQueue = []) (hlt : s.activeRequests < (N : ℤ)) :
    (requestOnGate N cfg tr jit s).2 = s ∧
    ((waitForSlot N s 0).1).activeRequests = s.activeRequests + 1 := by
  obtain ⟨x, q⟩ := s
  simp only [GateState.mk.injEq] at hq ⊢
  subst hq
  constructor
  · simp [requestOnGate, waitForSlot, releaseSlot, hlt]
  · simp [waitForSlot, hlt]

/-- C4 witness: on a fresh gate with `maxConcurrent = 5`, a request that
exhausts all retries still restores the gate state. -/
theorem slot_release_roundtrip_witness :
    (requestOnGate 5 cfgDefault (fun _ => .resp 503 none (.json "busy")) (fun _ => 0)
        GateState.init).2 = GateState.init ∧
    ((waitForSlot 5 GateState.init 0).1).activeRequests
        = GateState.init.activeRequests + 1 :=
  slot_release_roundtrip 5 cfgDefault (fun _ => .resp 503 none (.json "busy"))
    (fun _ => 0) GateState.init rfl (by decide)

/-- C5: on a retryable response carrying a parsed `Retry-After` value `r`
the delay slept before the next attempt is `r * 1000` milliseconds,
whatever the backoff configuration; without a `Retry-After` value —
including every network-level failure — the slept delay is the computed
backoff `calculateDelay attempt` (no `Retry-After` argument). -/
theorem retry_after_precedence (cfg : RetryConfig) (jit : Nat → ℚ)
    (hK : 0 < cfg.maxRetries) :
    (∀ tr s (r : ℤ) v, tr 0 = .resp s (some r) (.json v) → shouldRetry s = true →
      ((request cfg tr jit).2.2).head? = some ((r : ℚ) * 1000)) ∧
    (∀ tr s v, tr 0 = .resp s none (.json v) → shouldRetry s = true →
      ((request cfg tr jit).2.2).head? = some (calculateDelay cfg 0 none (jit 0))) ∧
    (∀ tr e, tr 0 = .fetchError e →
      ((request cfg tr jit).2.2).head? = some (calculateDelay cfg 0 none (jit 0))) := by
  refine ⟨?_, ?_, ?_⟩
  · intro tr s r v htr hs
    have hstep : attemptStep cfg tr jit 0
        = .retryWith (.api s v) (calculateDelay cfg 0 (some r) (jit 0)) := by
      rw [attemptStep_retryable cfg tr jit 0 s (some r) v htr hs, if_pos hK]
    show ((runFrom cfg tr jit (cfg.maxRetries + 1) 0 none).2.2).head? = _
    rw [runFrom_retry_step cfg tr jit cfg.maxRetries 0 none _ _ hstep]
    simp [calculateDelay]
  · intro tr s v htr hs
    have hstep : attemptStep cfg tr jit 0
        = .retryWith (.api s v) (calculateDelay cfg 0 none (jit 0)) := by
      rw [attemptStep_retryable cfg tr jit 0 s none v htr hs, if_pos hK]
    show ((runFrom cfg tr jit (cfg.maxRetries + 1) 0 none).2.2).head? = _
    rw [runFrom_retry_step cfg tr jit cfg.maxRetries 0 none _ _ hstep]
    simp
  · intro tr e htr
    have hstep : attemptStep cfg tr jit 0
        = .retryWith (.network e) (calculateDelay cfg 0 none (jit 0)) := by
      simp [attemptStep, htr, hK]
    show ((runFrom cfg tr jit (cfg.maxRetries + 1) 0 none).2.2).head? = _
    rw [runFrom_retry_step cfg tr jit cfg.maxRetries 0 none _ _ hstep]
    simp

/-- C5 witness: a 429 with `Retry-After: 2` sleeps 2000 ms before the
second attempt; a 429 without the header, and a network error, sleep the
computed backoff (1000 ms at attempt 0 with zero jitter). -/
theorem retry_after_precedence_witness :
    ((request cfgDefault (fun a => if a = 0 then .resp 429 (some 2) (.json "rl")
        else .resp 200 none (.json "ok")) (fun _ => 0)).2.2).head? = some (2000 : ℚ) ∧
    ((request cfgDefault (fun a => if a = 0 then .resp 429 none (.json "rl")
        else .resp 200 none (.json "ok")) (fun _ => 0)).2.2).head?
        = some (calculateDelay cfgDefault 0 none 0) ∧
    ((request cfgDefault (fun a => if a = 0 then .fetchError "refused"
        else .resp 200 none (.json "ok")) (fun _ => 0)).2.2).head?
        = some (calculateDelay cfgDefault 0 none 0) := by
  have h := retry_after_precedence cfgDefault (fun _ => 0) (by decide)
  refine ⟨?_, ?_, ?_⟩
  · have h1 := h.1 (fun a => if a = 0 then .resp 429 (some 2) (.json "rl")
      else .resp 200 none (.json "ok")) 429 2 "rl" rfl rfl
    norm_num at h1 ⊢
    exact h1
  · exact h.2.1 (fun a => if a = 0 then .resp 429 none (.json "rl")
      else .resp 200 none (.json "ok")) 429 "rl" rfl rfl
  · exact h.2.2 (fun a => if a = 0 then .fetchError "refused"
      else .resp 200 none (.json "ok")) "refused" rfl

/-- C6: without a `Retry-After` value the pre-jitter delay is
`min(baseDelay * backoffMultiplier ^ attempt, maxDelay)`; the returned
delay is that value plus a jitter of at most 20 percent of it (the
jitter term is `cappedDelay * 0.2 * j` with `j` between -1 and 1, and
the sum is floored at 0), so the final delay lies within 20 percent of
the pre-jitter value and is never negative. -/
theorem backoff_jitter_bound (cfg : RetryConfig) (a : Nat) (j : ℚ)
    (hb : 0 ≤ cfg.baseDelay) (hm : 0 ≤ cfg.backoffMultiplier) (hx : 0 ≤ cfg.maxDelay)
    (hj1 : -1 ≤ j) (hj2 : j ≤ 1) :
    preJitterDelay cfg a = min (cfg.baseDelay * cfg.backoffMultiplier ^ a) cfg.maxDelay ∧
    calculateDelay cfg a none j
      = max 0 (preJitterDelay cfg a + preJitterDelay cfg a * (1/5) * j) ∧
    |calculateDelay cfg a none j - preJitterDelay cfg a|
      ≤ (1/5) * preJitterDelay cfg a ∧
    0 ≤ calculateDelay cfg a none j := by
  have hD : 0 ≤ preJitterDelay cfg a :=
    le_min (mul_nonneg hb (pow_nonneg hm a)) hx
  have heq : calculateDelay cfg a none j
      = max 0 (preJitterDelay cfg a + preJitterDelay cfg a * (1/5) * j) := rfl
  have hup : 0 ≤ preJitterDelay cfg a * (1 - j) := mul_nonneg hD (by linarith)
  have hdown : 0 ≤ preJitterDelay cfg a * (1 + j) := mul_nonneg hD (by linarith)
  have hpos : 0 ≤ preJitterDelay cfg a + preJitterDelay cfg a * (1/5) * j := by
    nlinarith
  refine ⟨rfl, heq, ?_, ?_⟩
  · rw [heq, max_eq_right hpos]
    have hsub : preJitterDelay cfg a + preJitterDelay cfg a * (1/5) * j
        - preJitterDelay cfg a = preJitterDelay cfg a * (1/5) * j := by ring
    rw [hsub, abs_le]
    constructor <;> nlinarith
  · rw [heq]
    exact le_max_left 0 _

/-- C6 witness: defaults, attempt 2, jitter draw `j = -1/2`: pre-jitter
delay 4000 and final delay 3600, within the 20 percent band. -/
theorem backoff_jitter_bound_witness :
    preJitterDelay cfgDefault 2
        = min (cfgDefault.baseDelay * cfgDefault.backoffMultiplier ^ 2)
            cfgDefault.maxDelay ∧
    calculateDelay cfgDefault 2 none (-1/2)
      = max 0 (preJitterDelay cfgDefault 2 + preJitterDelay cfgDefault 2 * (1/5) * (-1/2)) ∧
    |calculateDelay cfgDefault 2 none (-1/2) - preJitterDelay cfgDefault 2|
      ≤ (1/5) * preJitterDelay cfgDefault 2 ∧
    0 ≤ calculateDelay cfgDefault 2 none (-1/2) :=
  backoff_jitter_bound cfgDefault 2 (-1/2) (by norm_num [cfgDefault])
    (by norm_num [cfgDefault]) (by norm_num [cfgDefault]) (by norm_num) (by norm_num)

/-- C7: slots are granted to waiters strictly in FIFO arrival order: in
every run from the initial state, the sequence of queue grants followed
by the still-queued waiters equals the sequence of enqueues (so a later
waiter never overtakes an earlier one); moreover while any waiter is
queued the count is at the bound, so no newcomer can slip past the queue
through the fast path of `waitForSlot`. -/
theorem fifo_queue_grants (N : Nat) (ops : List GateOp) :
    queueGrants (runGate N ops).2 ++ ((runGate N ops).1).requestQueue
      = enqueuedList (runGate N ops).2 ∧
    (((runGate N ops).1).requestQueue ≠ [] →
      (N : ℤ) ≤ ((runGate N ops).1).activeRequests) := by
  constructor
  · have h := runGateFrom_queue_invariant N ops GateState.init
    simpa [runGate, GateState.init] using h
  · exact runGateFrom_queue_active N ops GateState.init
      (by intro h; exact absurd rfl h)

/-- C7 witness: `maxConcurrent = 1`, callers 7, 8, 9 arrive, one release:
caller 8 (the first waiter) is granted, caller 9 stays queued, and the
count sits at the bound. -/
theorem fifo_queue_grants_witness :
    queueGrants (runGate 1 [.acquire 7, .acquire 8, .acquire 9, .release]).2
        ++ ((runGate 1 [.acquire 7, .acquire 8, .acquire 9, .release]).1).requestQueue
      = enqueuedList (runGate 1 [.acquire 7, .acquire 8, .acquire 9, .release]).2 ∧
    (1 : ℤ) ≤ ((runGate 1 [.acquire 7, .acquire 8, .acquire 9, .release]).1).activeRequests :=
  ⟨(fifo_queue_grants 1 [.acquire 7, .acquire 8, .acquire 9, .release]).1,
   (fifo_queue_grants 1 [.acquire 7, .acquire 8, .acquire 9, .release]).2 (by decide)⟩

/-- C8: a 204 response returns success with the empty-object payload for
ANY body (the body is never read, so never parsed); a response with an
empty body returns the empty-object success for ANY status; any other
2xx response with a JSON body returns the decoded body — each after one
attempt. -/
theorem success_payload_shapes (cfg : RetryConfig) (tr : Nat → FetchResult)
    (jit : Nat → ℚ) :
    (∀ ra b, tr 0 = .resp 204 ra b → request cfg tr jit = (.success .emptyObj, 1, [])) ∧
    (∀ s ra, tr 0 = .resp s ra .empty → request cfg tr jit = (.success .emptyObj, 1, [])) ∧
    (∀ s ra v, tr 0 = .resp s ra (.json v) → 200 ≤ s → s < 300 → s ≠ 204 →
      request cfg tr jit = (.success (.data v), 1, [])) := by
  refine ⟨?_, ?_, ?_⟩
  · intro ra b htr
    have hstep : attemptStep cfg tr jit 0 = .success .emptyObj := by
      simp [attemptStep, htr]
    exact runFrom_success_step cfg tr jit cfg.maxRetries 0 none _ hstep
  · intro s ra htr
    have hstep : attemptStep cfg tr jit 0 = .success .emptyObj := by
      by_cases h204 : s = 204
      · simp [attemptStep, htr, h204]
      · simp [attemptStep, htr, h204]
    exact runFrom_success_step cfg tr jit cfg.maxRetries 0 none _ hstep
  · intro s ra v htr h1 h2 h204
    have hok : 200 ≤ s ∧ s < 300 := ⟨h1, h2⟩
    have hstep : attemptStep cfg tr jit 0 = .success (.data v) := by
      simp [attemptStep, htr, h204, hok]
    exact runFrom_success_step cfg tr jit cfg.maxRetries 0 none _ hstep

/-- C8 witness: a 204 with a malformed body, a 500 with an empty body,
and a 200 with a JSON body. -/
theorem success_payload_shapes_witness :
    request cfgDefault (fun _ => .resp 204 none (.malformed "junk")) (fun _ => 0)
        = (.success .emptyObj, 1, []) ∧
    request cfgDefault (fun _ => .resp 500 none .empty) (fun _ => 0)
        = (.success .emptyObj, 1, []) ∧
    request cfgDefault (fun _ => .resp 200 none (.json "payload")) (fun _ => 0)
        = (.success (.data "payload"), 1, []) :=
  ⟨(success_payload_shapes cfgDefault (fun _ => .resp 204 none (.malformed "junk"))
      (fun _ => 0)).1 none (.malformed "junk") rfl,
   (success_payload_shapes cfgDefault (fun _ => .resp 500 none .empty)
      (fun _ => 0)).2.1 500 none rfl,
   (success_payload_shapes cfgDefault (fun _ => .resp 200 none (.json "payload"))
      (fun _ => 0)).2.2 200 none "payload" rfl (by omega) (by omega) (by omega)⟩

/-- C9 (implicit): for any defined `Retry-After` value `r`,
`calculateDelay` returns exactly `r * 1000`, independent of the attempt
index and of `baseDelay` / `maxDelay` / `backoffMultiplier`, unjittered;
a negative `r` yields a negative delay (no floor at 0) and the result is
not capped by `maxDelay`. -/
theorem retry_after_uncapped (cfg : RetryConfig) (a : Nat) (r : ℤ) (j : ℚ) :
    calculateDelay cfg a (some r) j = (r : ℚ) * 1000 ∧
    calculateDelay cfgDefault 7 (some (-1)) (1/2) = -1000 ∧
    calculateDelay cfgDefault 7 (some (-1)) (1/2) < 0 ∧
    cfgDefault.maxDelay < calculateDelay cfgDefault 0 (some 1000) 0 := by
  refine ⟨rfl, ?_, ?_, ?_⟩
  · norm_num [calculateDelay]
  · norm_num [calculateDelay]
  · norm_num [calculateDelay, cfgDefault]

end BinaryLane
